import Mathlib

/-!
# luakit.c : option dispatch, log-level parsing, startup order, argument scrubbing

A shallow embedding of `src/luakit.c`.  The C functions `init_directories`,
`parse_log_level_option`, `glib_log_writer`, `luakit_startup`, `luakit_local_options` and
`main` become Lean functions of the same name.  Calls into code that is not part of
`luakit.c` (GLib, GTK, libc, `log.c`, `luah.c`, `ipc.c`, `web_context.c`) are recorded, in
program order, in an event trace; a call is synchronous, so an event stands for the call
together with its return.  Results of such calls come from an environment.
-/

namespace Luakit

/-! ## Strings, log levels and the verbosity table -/

/-- A `gchar *` string, as its characters up to (not including) the terminating NUL. -/
abbrev GString := List Char

/-- Modelled from the spec: the `log_level_t` enum of `log.h`, which is not part of
`luakit.c`.  The spec lists the severities `debug < verbose < info < warn < fatal`;
`luakit.c` uses exactly these five as `LOG_LEVEL_fatal`, `LOG_LEVEL_warn`,
`LOG_LEVEL_info`, `LOG_LEVEL_verbose` and `LOG_LEVEL_debug`. -/
inductive log_level_t where
  | fatal
  | warn
  | info
  | verbose
  | debug
deriving DecidableEq, Repr

/-- Modelled from the spec: the spelling of a severity in a `--log` string
(`all=debug,net=warn`). -/
def log_level_name : log_level_t → GString
  | .fatal => "fatal".toList
  | .warn => "warn".toList
  | .info => "info".toList
  | .verbose => "verbose".toList
  | .debug => "debug".toList

/-- Modelled from the spec: `log_level_from_string` of `log.c`.  The C function returns 0
and stores the level when the string spells a level, and returns non-zero otherwise;
here `some lvl` is the first outcome and `none` the second. -/
def log_level_from_string (str : GString) : Option log_level_t :=
  if str = "fatal".toList then some .fatal
  else if str = "warn".toList then some .warn
  else if str = "info".toList then some .info
  else if str = "verbose".toList then some .verbose
  else if str = "debug".toList then some .debug
  else none

/-- Modelled from the spec: position of a severity in the order
`debug < verbose < info < warn < fatal`. -/
def log_level_rank : log_level_t → Nat
  | .debug => 0
  | .verbose => 1
  | .info => 2
  | .warn => 3
  | .fatal => 4

/-- Modelled from the spec: the LogVerbosityTable of `log.c`, a mapping from subsystem
name to minimum severity, kept as an association list with at most one entry per name. -/
abbrev VerbosityTable := List (GString × log_level_t)

/-- Modelled from the spec: `setVerbosity` "registers/overwrites a threshold"; the table
update performed by `log_set_verbosity` of `log.c`. -/
def VerbosityTable.set (t : VerbosityTable) (group : GString) (lvl : log_level_t) :
    VerbosityTable :=
  (group, lvl) :: t.filter (fun e => decide (e.1 ≠ group))

/-- Modelled from the spec: the threshold registered for a subsystem, if any. -/
def VerbosityTable.get (t : VerbosityTable) (group : GString) : Option log_level_t :=
  (t.find? (fun e => decide (e.1 = group))).map Prod.snd

/-- Modelled from the spec: the effective threshold of subsystem `S`, "falling back to
the all threshold if S is unregistered". -/
def effective_threshold (t : VerbosityTable) (S : GString) : Option log_level_t :=
  match t.get S with
  | some lvl => some lvl
  | none => t.get "all".toList

/-- Modelled from the spec: `shouldEmit(S, L)` is true iff `L` is at or above the
effective threshold for `S`.  The spec names no threshold when neither `S` nor `all`
is registered; the result is `none` then. -/
def shouldEmit (t : VerbosityTable) (S : GString) (L : log_level_t) : Option Bool :=
  (effective_threshold t S).map (fun th => decide (log_level_rank th ≤ log_level_rank L))

/-! ## The world the program acts on -/

/-- A file name built by `g_build_filename`, kept as the list of its elements. -/
abbrev FileName := List GString

/-- A byte buffer holding a C string: the bytes of the object an `argv[i]` points to. -/
abbrev Buffer := List Nat

/-- The fields of `globalconf` that `luakit.c` reads or writes. -/
structure Globalconf where
  confpath : Option GString
  profile : Option GString
  cache_dir : Option FileName
  config_dir : Option FileName
  data_dir : Option FileName
  windows : Bool
  starttime : Option Nat
  application_name : Option GString
  execpath : Option Buffer
  argv : Option (List Buffer)
  application : Option Nat
deriving DecidableEq, Repr

/-- One call that leaves `luakit.c`, with the arguments that matter. -/
inductive Event where
  | g_printf (out : GString)
  | g_fprintf_stderr (out : GString)
  | log_set_verbosity (group : GString) (lvl : log_level_t)
  | warn (msg : GString)
  | fatal (msg : GString)
  | g_mkdir_with_parents (path : FileName) (mode : Nat)
  | g_log_set_writer_func
  | web_context_init
  | ipc_init
  | luaH_init (null_argument : Bool)
  | luaH_parserc (confpath : Option GString) (run : Bool)
  | log_init
  | gtk_disable_setlocale
  | setlocale (category : GString) (locale : GString)
  | fork
  | setsid
  | gtk_application_new (application_id : GString) (flags : Nat)
  | g_application_set_flags (flags : Nat)
  | g_application_add_main_option_entries (long_names : List GString)
  | g_signal_connect (signal : GString) (handler : GString)
  | g_application_run (flags : Nat) (argc : Nat) (argv : List Buffer)
  | g_object_unref
deriving DecidableEq, Repr

/-- Program state: `globalconf`, the verbosity table of `log.c`, the live argument
vector of the process, and the trace of outside calls made so far. -/
structure World where
  globalconf : Globalconf
  verbosity : VerbosityTable
  argv : List Buffer
  trace : List Event
deriving DecidableEq, Repr

/-- What the surroundings of `luakit.c` answer: build-time constants and the results of
outside calls. -/
structure Env where
  VERSION : GString
  glib_log_writer_compiled : Bool
  g_get_user_cache_dir : GString
  g_get_user_config_dir : GString
  g_get_user_data_dir : GString
  luaH_parserc : Option GString → Bool → Bool
  l_time : Nat
  g_application_id_is_valid : GString → Bool
  fork : Int
  setsid : Int
  errno : Int
  g_application_run : Nat → Nat → List Buffer → Int

/-- How a piece of code ends: it returns a value, the process exits with a status, or
the process is aborted by `fatal`. -/
inductive Outcome (α : Type) where
  | ret (v : α) (w : World)
  | exited (status : Int) (w : World)
  | aborted (w : World)
deriving DecidableEq, Repr

/-- Code acting on the world. -/
def M (α : Type) : Type := World → Outcome α

/-- Sequencing: the second part runs only when the first returned. -/
def M.bind {α β : Type} (m : M α) (f : α → M β) : M β := fun w =>
  match m w with
  | .ret a w1 => f a w1
  | .exited s w1 => .exited s w1
  | .aborted w1 => .aborted w1

instance : Monad M where
  pure a := fun w => .ret a w
  bind := M.bind

/-- Record an outside call. -/
def emit (e : Event) : M Unit := fun w =>
  .ret () { w with trace := w.trace ++ [e] }

/-- Read the world. -/
def getWorld : M World := fun w => .ret w w

/-- Update `globalconf`. -/
def modifyGlobalconf (f : Globalconf → Globalconf) : M Unit := fun w =>
  .ret () { w with globalconf := f w.globalconf }

/-- Modelled from the spec: `log_set_verbosity` of `log.c`, which registers or overwrites
the threshold of one subsystem. -/
def log_set_verbosity (group : GString) (lvl : log_level_t) : M Unit := fun w =>
  .ret () { w with verbosity := w.verbosity.set group lvl,
                   trace := w.trace ++ [Event.log_set_verbosity group lvl] }

/-- The `warn` of `log.h`: hands a message of severity warn to the log router of `log.c`.
The call is what is recorded; what the router does with the message is not part of
`luakit.c`. -/
def warn (msg : GString) : M Unit := emit (Event.warn msg)

/-- Modelled from the spec: the `fatal` of `log.h`, the fatal-abort path; it does not
return. -/
def fatal {α : Type} (msg : GString) : M α := fun w =>
  .aborted { w with trace := w.trace ++ [Event.fatal msg] }

/-! ## GLib and libc helpers -/

/-- Pieces of a string between occurrences of the delimiter (always at least one). -/
def split_on (delimiter : Char) : GString → List GString
  | [] => [[]]
  | c :: cs =>
    if c = delimiter then [] :: split_on delimiter cs
    else
      match split_on delimiter cs with
      | [] => [[c]]
      | p :: ps => (c :: p) :: ps

/-- The `g_strsplit (string, delimiter, 0)` of GLib for a one-character delimiter: the
string is split completely; splitting the empty string gives the empty vector. -/
def g_strsplit (string : GString) (delimiter : Char) : List GString :=
  if string = [] then [] else split_on delimiter string

/-- The `strchr` of libc: index of the first occurrence of `c`, or `none` for NULL. -/
def strchr : GString → Char → Option Nat
  | [], _ => none
  | x :: xs, c => if x = c then some 0 else (strchr xs c).map (· + 1)

/-- GVariant values as far as the option dictionary holds them. -/
inductive GVariant where
  | boolean (b : Bool)
  | string (s : GString)
deriving DecidableEq, Repr

/-- The options dictionary handed to `handle-local-options`: a finite map from option
names to values, given by its lookup function. -/
abbrev GVariantDict := GString → Option GVariant

/-- The `g_variant_dict_lookup_value (dict, key, NULL)` of GLib. -/
def g_variant_dict_lookup_value (dict : GVariantDict) (key : GString) : Option GVariant :=
  dict key

/-- The `g_variant_dict_lookup (dict, key, "s", &out)` of GLib: succeeds when the key is
present with a string value. -/
def g_variant_dict_lookup_s (dict : GVariantDict) (key : GString) : Option GString :=
  match g_variant_dict_lookup_value dict key with
  | some (.string s) => some s
  | _ => none

/-- The `g_build_filename (first, ..., NULL)` of GLib: the elements before the first NULL. -/
def g_build_filename : List (Option GString) → FileName
  | [] => []
  | none :: _ => []
  | some e :: rest => e :: g_build_filename rest

/-! ## luakit.c -/

/-- The function `init_directories` (luakit.c:41-51). -/
def init_directories (env : Env) : M Unit := do
  let w ← getWorld
  let profile := w.globalconf.profile
  let cache_dir :=
    g_build_filename [some env.g_get_user_cache_dir, some "luakit".toList, profile, none]
  let config_dir :=
    g_build_filename [some env.g_get_user_config_dir, some "luakit".toList, profile, none]
  let data_dir :=
    g_build_filename [some env.g_get_user_data_dir, some "luakit".toList, profile, none]
  modifyGlobalconf (fun g => { g with cache_dir := some cache_dir })
  modifyGlobalconf (fun g => { g with config_dir := some config_dir })
  modifyGlobalconf (fun g => { g with data_dir := some data_dir })
  emit (Event.g_mkdir_with_parents cache_dir 0o771)
  emit (Event.g_mkdir_with_parents config_dir 0o771)
  emit (Event.g_mkdir_with_parents data_dir 0o771)

/-- The text of the warning for an unrecognised part (luakit.c:68). -/
def unrecognized_warning (part : GString) : GString :=
  "ignoring unrecognized --log option '".toList ++ part ++ "'".toList

/-- The body of the loop of `parse_log_level_option` (luakit.c:59-69) for one part. -/
def parse_log_level_part (part : GString) : M Unit :=
  match log_level_from_string part with
  | some lvl => log_set_verbosity "all".toList lvl
  | none =>
    match strchr part '=' with
    | some sep =>
      match log_level_from_string (part.drop (sep + 1)) with
      | some lvl => log_set_verbosity (part.take sep) lvl
      | none => warn (unrecognized_warning part)
    | none => warn (unrecognized_warning part)

/-- The loop of `parse_log_level_option` (luakit.c:58-70) over the parts. -/
def parse_log_level_parts : List GString → M Unit
  | [] => pure ()
  | part :: parts => do
    parse_log_level_part part
    parse_log_level_parts parts

/-- The function `parse_log_level_option` (luakit.c:53-72). -/
def parse_log_level_option (log_lvl : GString) : M Unit :=
  parse_log_level_parts (g_strsplit log_lvl ',')

/-- The function `luakit_startup` (luakit.c:108-122). -/
def luakit_startup (env : Env) : M Unit := do
  modifyGlobalconf (fun g => { g with windows := true })
  if env.glib_log_writer_compiled then
    emit Event.g_log_set_writer_func
  init_directories env
  emit Event.web_context_init
  emit Event.ipc_init
  emit (Event.luaH_init false)
  let w ← getWorld
  emit (Event.luaH_parserc w.globalconf.confpath true)
  if !(env.luaH_parserc w.globalconf.confpath true) then
    fatal "couldn't find rc file".toList

/-- The function `luakit_local_options` (luakit.c:136-173). -/
def luakit_local_options (env : Env) (dict : GVariantDict) : M Int := do
  match g_variant_dict_lookup_value dict "version".toList with
  | some _ =>
    emit (Event.g_printf ("luakit ".toList ++ env.VERSION ++ "\n".toList))
    return 0
  | none =>
    match g_variant_dict_lookup_value dict "check".toList with
    | some _ =>
      init_directories env
      emit (Event.luaH_init true)
      let w ← getWorld
      emit (Event.luaH_parserc w.globalconf.confpath false)
      if !(env.luaH_parserc w.globalconf.confpath false) then
        emit (Event.g_fprintf_stderr "Confiuration file syntax error.\n".toList)
        return 1
      else
        emit (Event.g_fprintf_stderr "Configuration file syntax OK.\n".toList)
        return 0
    | none =>
      let verbose : Bool := (g_variant_dict_lookup_value dict "verbose".toList).isSome
      match g_variant_dict_lookup_s dict "log".toList with
      | some log_lvl =>
        log_set_verbosity "all".toList log_level_t.info
        parse_log_level_option log_lvl
        if verbose then
          warn "invalid mix of -v and -l, ignoring -v...".toList
        return (-1)
      | none =>
        log_set_verbosity "all".toList
          (if verbose then log_level_t.verbose else log_level_t.info)
        return (-1)

/-! ## main: daemonization, application flags, argument scrubbing -/

/-- The C string held in a buffer: the bytes before the first NUL. -/
def cstring (b : Buffer) : List Nat := b.takeWhile (fun x => decide (x ≠ 0))

/-- The `strlen` of libc: number of bytes before the first NUL. -/
def strlen (b : Buffer) : Nat := (cstring b).length

/-- The `g_strdup` of GLib: a fresh buffer with the bytes before the first NUL and a
terminating NUL. -/
def g_strdup (b : Buffer) : Buffer := cstring b ++ [0]

/-- The `g_strdupv` of GLib: a fresh vector with a `g_strdup` of every string. -/
def g_strdupv (v : List Buffer) : List Buffer := v.map g_strdup

/-- The `memset (b, c, n)` of libc: the first `n` bytes of the buffer become `c`, the
bytes after them stay. -/
def memset (b : Buffer) (c : Nat) (n : Nat) : Buffer :=
  (b.take n).map (fun _ => c) ++ b.drop n

/-- The loop that saves a copy of argv (luakit.c:224-225). -/
def save_argv (argc : Nat) (argv : List Buffer) : List Buffer :=
  (List.range argc).foldl (fun saved i => saved ++ [g_strdup (argv.getD i [])]) []

/-- The loop that erases the real argv (luakit.c:255-256). -/
def erase_argv (argc : Nat) (argv : List Buffer) : List Buffer :=
  (List.range' 1 (argc - 1)).foldl
    (fun live i => live.set i (memset (live.getD i []) 0 (strlen (live.getD i [])))) argv

/-- GApplicationFlags of GIO. -/
def G_APPLICATION_HANDLES_OPEN : Nat := 4

/-- GApplicationFlags of GIO. -/
def G_APPLICATION_NON_UNIQUE : Nat := 32

/-- The `exit` of libc. -/
def exit {α : Type} (status : Int) : M α := fun w => .exited status w

/-- Update the live argument vector. -/
def modifyArgv (f : List Buffer → List Buffer) : M Unit := fun w =>
  .ret () { w with argv := f w.argv }

/-- The long names of the option entries registered by `main` (luakit.c:232-243). -/
def entries : List GString :=
  ["check".toList, "version".toList, "verbose".toList, "log".toList, "config".toList,
   "profile".toList, "nonblock".toList, "nonunique".toList]

/-- The function `main` (luakit.c:175-260); `argv` is the live vector of the world. -/
def main (env : Env) (argc : Nat) : M Int := do
  modifyGlobalconf (fun g => { g with starttime := some env.l_time })
  modifyGlobalconf (fun g => { g with application_name := some "org.luakit".toList })
  if !(env.g_application_id_is_valid "org.luakit".toList) then
    fatal "invalid application name".toList
  emit Event.log_init
  emit Event.gtk_disable_setlocale
  emit (Event.setlocale "LC_ALL".toList "".toList)
  emit (Event.setlocale "LC_NUMERIC".toList "C".toList)
  -- gboolean *nonblock = NULL; gboolean *nonunique = false;
  -- nothing between these declarations and the tests below assigns them: the option
  -- context that would (luakit.c:194-204) is commented out
  let nonblock : Option Nat := none
  let nonunique : Option Nat := none
  if nonblock.isSome then
    emit Event.fork
    let pid := env.fork
    if pid < 0 then
      fatal ("Cannot fork: ".toList ++ (toString env.errno).toList)
    else if pid > 0 then
      exit 0
    emit Event.setsid
    let sid := env.setsid
    if sid < 0 then
      fatal ("New SID creation failure: ".toList ++ (toString env.errno).toList)
  let w ← getWorld
  modifyGlobalconf (fun g => { g with execpath := some (g_strdup (w.argv.getD 0 [])) })
  modifyGlobalconf (fun g => { g with argv := some (save_argv argc w.argv) })
  emit (Event.gtk_application_new "org.luakit".toList G_APPLICATION_HANDLES_OPEN)
  modifyGlobalconf (fun g => { g with application := some G_APPLICATION_HANDLES_OPEN })
  if nonunique.isSome then
    emit (Event.g_application_set_flags
      (G_APPLICATION_NON_UNIQUE ||| G_APPLICATION_HANDLES_OPEN))
    modifyGlobalconf (fun g =>
      { g with application := some (G_APPLICATION_NON_UNIQUE ||| G_APPLICATION_HANDLES_OPEN) })
  emit (Event.g_application_add_main_option_entries entries)
  emit (Event.g_signal_connect "handle-local-options".toList "luakit_local_options".toList)
  emit (Event.g_signal_connect "startup".toList "luakit_startup".toList)
  emit (Event.g_signal_connect "open".toList "luakit_browse".toList)
  emit (Event.g_signal_connect "activate".toList "luakit_activate".toList)
  let w1 ← getWorld
  let argv2 := g_strdupv w1.argv
  modifyArgv (erase_argv argc)
  let w2 ← getWorld
  let flags := w2.globalconf.application.getD 0
  emit (Event.g_application_run flags argc argv2)
  let status := env.g_application_run flags argc argv2
  emit Event.g_object_unref
  return status

/-! ## The GLib log writer -/

/-- GLogLevelFlags of GLib. -/
def G_LOG_FLAG_RECURSION : Nat := 1

/-- GLogLevelFlags of GLib. -/
def G_LOG_FLAG_FATAL : Nat := 2

/-- GLogLevelFlags of GLib. -/
def G_LOG_LEVEL_ERROR : Nat := 4

/-- GLogLevelFlags of GLib. -/
def G_LOG_LEVEL_CRITICAL : Nat := 8

/-- GLogLevelFlags of GLib. -/
def G_LOG_LEVEL_WARNING : Nat := 16

/-- GLogLevelFlags of GLib. -/
def G_LOG_LEVEL_MESSAGE : Nat := 32

/-- GLogLevelFlags of GLib. -/
def G_LOG_LEVEL_INFO : Nat := 64

/-- GLogLevelFlags of GLib. -/
def G_LOG_LEVEL_DEBUG : Nat := 128

/-- GLogLevelFlags of GLib: `~(G_LOG_FLAG_RECURSION | G_LOG_FLAG_FATAL)` on 32 bits. -/
def G_LOG_LEVEL_MASK : Nat := 2 ^ 32 - 1 - (G_LOG_FLAG_RECURSION ||| G_LOG_FLAG_FATAL)

/-- The designated initialisers of the compound literal of `glib_log_writer`
(luakit.c:94-101): the entry written for an index, `none` for an index without an
initialiser (C fills such an entry with zero). -/
def glib_level_entry (i : Nat) : Option log_level_t :=
  if i = G_LOG_LEVEL_ERROR then some log_level_t.fatal
  else if i = G_LOG_LEVEL_CRITICAL then some log_level_t.warn
  else if i = G_LOG_LEVEL_WARNING then some log_level_t.warn
  else if i = G_LOG_LEVEL_MESSAGE then some log_level_t.info
  else if i = G_LOG_LEVEL_INFO then some log_level_t.verbose
  else if i = G_LOG_LEVEL_DEBUG then some log_level_t.debug
  else none

/-- The compound literal of `glib_log_writer` (luakit.c:94-101): an array as long as
its largest designator requires. -/
def glib_level_table : List (Option log_level_t) :=
  (List.range (G_LOG_LEVEL_DEBUG + 1)).map glib_level_entry

/-- What `glib_log_writer` does. -/
inductive WriterResult where
  | unhandled
  | handled (log_level : log_level_t) (code_line code_file text : GString)
  | reads_uninitialised_entry (index : Nat)
  | reads_outside_array (index : Nat)
deriving DecidableEq, Repr

/-- The loop over the fields (luakit.c:83-88): the last field with the key wins. -/
def field_value (key : GString) (fallback : GString) : List (GString × GString) → GString
  | [] => fallback
  | (k, v) :: rest => field_value key (if k = key then v else fallback) rest

/-- The function `glib_log_writer` (luakit.c:75-105); `log_level_flags` is the 32-bit
pattern of the GLogLevelFlags argument. -/
def glib_log_writer (log_level_flags : Nat) (fields : List (GString × GString)) :
    WriterResult :=
  let log_domain := field_value "GLIB_DOMAIN".toList "(unknown)".toList fields
  let message := field_value "MESSAGE".toList "(empty)".toList fields
  let code_file := field_value "CODE_FILE".toList "(unknown)".toList fields
  let code_line := field_value "CODE_LINE".toList "(unknown)".toList fields
  if G_LOG_LEVEL_MASK &&& log_level_flags = 0 then .unhandled
  else
    match glib_level_table[log_level_flags]? with
    | none => .reads_outside_array log_level_flags
    | some none => .reads_uninitialised_entry log_level_flags
    | some (some log_level) =>
      .handled log_level code_line code_file (log_domain ++ ": ".toList ++ message)

/-! ## Sample inputs -/

/-- The empty world: nothing configured, nothing registered, nothing called yet. -/
def World.empty : World :=
  { globalconf := { confpath := none, profile := none, cache_dir := none, config_dir := none,
                    data_dir := none, windows := false, starttime := none,
                    application_name := none, execpath := none, argv := none,
                    application := none },
    verbosity := [], argv := [], trace := [] }

/-- A sample environment. -/
def Env.sample : Env :=
  { VERSION := "2.3".toList, glib_log_writer_compiled := false,
    g_get_user_cache_dir := "/home/u/.cache".toList,
    g_get_user_config_dir := "/home/u/.config".toList,
    g_get_user_data_dir := "/home/u/.local/share".toList,
    luaH_parserc := fun _ _ => true, l_time := 0,
    g_application_id_is_valid := fun _ => true,
    fork := 0, setsid := 1, errno := 0,
    g_application_run := fun _ _ _ => 0 }

/-- A C string in a buffer of exactly its size. -/
def cbuf (s : String) : Buffer := s.toList.map Char.toNat ++ [0]

/-- The dictionary with the given entries. -/
def dictOf (entries : List (GString × GVariant)) : GVariantDict := fun key =>
  (entries.find? (fun e => decide (e.1 = key))).map Prod.snd

/-! ## Summaries used in the statements -/

/-- The events of `init_directories` for a profile. -/
def init_directories_events (env : Env) (profile : Option GString) : List Event :=
  [Event.g_mkdir_with_parents
     (g_build_filename [some env.g_get_user_cache_dir, some "luakit".toList, profile, none]) 0o771,
   Event.g_mkdir_with_parents
     (g_build_filename [some env.g_get_user_config_dir, some "luakit".toList, profile, none]) 0o771,
   Event.g_mkdir_with_parents
     (g_build_filename [some env.g_get_user_data_dir, some "luakit".toList, profile, none]) 0o771]

/-- The `globalconf` left by `init_directories`. -/
def init_directories_conf (env : Env) (g : Globalconf) : Globalconf :=
  { g with
    cache_dir := some (g_build_filename
      [some env.g_get_user_cache_dir, some "luakit".toList, g.profile, none]),
    config_dir := some (g_build_filename
      [some env.g_get_user_config_dir, some "luakit".toList, g.profile, none]),
    data_dir := some (g_build_filename
      [some env.g_get_user_data_dir, some "luakit".toList, g.profile, none]) }

/-- What one part of a `--log` string asks for: a threshold for a subsystem, or nothing
(the part is not recognised). -/
def classify (part : GString) : Option (GString × log_level_t) :=
  match log_level_from_string part with
  | some lvl => some ("all".toList, lvl)
  | none =>
    match strchr part '=' with
    | some sep =>
      (log_level_from_string (part.drop (sep + 1))).map (fun lvl => (part.take sep, lvl))
    | none => none

/-- The world after the loop body has handled one part. -/
def apply_part (w : World) (part : GString) : World :=
  match classify part with
  | some (group, lvl) =>
    { w with verbosity := w.verbosity.set group lvl,
             trace := w.trace ++ [Event.log_set_verbosity group lvl] }
  | none => { w with trace := w.trace ++ [Event.warn (unrecognized_warning part)] }

/-! ## The reading of a `--log` string that the specification gives -/

/-- A well-formed part of a `--log` string: a bare level, or `name=level`. -/
inductive LogPart where
  | bare (level : log_level_t)
  | named (name : GString) (level : log_level_t)
deriving DecidableEq, Repr

/-- The text of a part. -/
def LogPart.text : LogPart → GString
  | .bare level => log_level_name level
  | .named name level => name ++ '=' :: log_level_name level

/-- The subsystem a part speaks about: a bare level "applies to all". -/
def LogPart.group : LogPart → GString
  | .bare _ => "all".toList
  | .named name _ => name

/-- The level a part asks for. -/
def LogPart.level : LogPart → log_level_t
  | .bare level => level
  | .named _ level => level

/-- The name of a named part contains neither `=` nor `,`. -/
def LogPart.wellFormed : LogPart → Prop
  | .bare _ => True
  | .named name _ => '=' ∉ name ∧ ',' ∉ name

/-- The comma-separated list of the parts. -/
def log_spec_text : List LogPart → GString
  | [] => []
  | [p] => p.text
  | p :: q :: rest => p.text ++ ',' :: log_spec_text (q :: rest)

/-- The table the specification describes for a list of parts: "all" starts at info,
then every part, in order, overwrites the threshold of its subsystem. -/
def spec_table (parts : List LogPart) (t : VerbosityTable) : VerbosityTable :=
  parts.foldl (fun acc p => acc.set p.group p.level) (t.set "all".toList log_level_t.info)

/-- The text of the warning about the ignored `-v` (luakit.c:168). -/
def mix_warning : GString := "invalid mix of -v and -l, ignoring -v...".toList

instance (p : LogPart) : Decidable p.wellFormed := by
  cases p <;> unfold LogPart.wellFormed <;> infer_instance

/-- The calls the loop body makes for one part. -/
def part_events (part : GString) : List Event :=
  match classify part with
  | some (group, lvl) => [Event.log_set_verbosity group lvl]
  | none => [Event.warn (unrecognized_warning part)]

/-- The table after the loop body has handled one part. -/
def part_table (t : VerbosityTable) (part : GString) : VerbosityTable :=
  match classify part with
  | some (group, lvl) => t.set group lvl
  | none => t

/-- The calls the loop makes for a list of parts. -/
def parts_events : List GString → List Event
  | [] => []
  | part :: parts => part_events part ++ parts_events parts

/-- The diagnostic printed by the check path (luakit.c:152 and 155). -/
def check_diagnostic (ok : Bool) : GString :=
  if ok then "Configuration file syntax OK.\n".toList
  else "Confiuration file syntax error.\n".toList

/-- An argument string after scrubbing, as the specification describes it: zero bytes
over the length of the original string, the bytes after them as they were. -/
def scrubbed (b : Buffer) : Buffer := List.replicate (strlen b) 0 ++ b.drop (strlen b)

/-- The world in which a piece of code ended. -/
def Outcome.world {α : Type} : Outcome α → World
  | .ret _ w => w
  | .exited _ w => w
  | .aborted w => w

/-- The calls `main` makes when it runs through, with the copy of the arguments it
hands to `g_application_run`. -/
def main_calls (argc : Nat) (argv2 : List Buffer) : List Event :=
  [Event.log_init, Event.gtk_disable_setlocale,
   Event.setlocale "LC_ALL".toList "".toList, Event.setlocale "LC_NUMERIC".toList "C".toList,
   Event.gtk_application_new "org.luakit".toList G_APPLICATION_HANDLES_OPEN,
   Event.g_application_add_main_option_entries entries,
   Event.g_signal_connect "handle-local-options".toList "luakit_local_options".toList,
   Event.g_signal_connect "startup".toList "luakit_startup".toList,
   Event.g_signal_connect "open".toList "luakit_browse".toList,
   Event.g_signal_connect "activate".toList "luakit_activate".toList,
   Event.g_application_run G_APPLICATION_HANDLES_OPEN argc argv2,
   Event.g_object_unref]

/-- A sample environment in which the configuration does not parse. -/
def Env.broken : Env := { Env.sample with luaH_parserc := fun _ _ => false }

/-! ## Basic facts about sequencing -/

theorem bind_apply {α β : Type} (m : M α) (f : α → M β) (w : World) :
    (m >>= f) w = match m w with
      | .ret a w1 => f a w1
      | .exited s w1 => .exited s w1
      | .aborted w1 => .aborted w1 := rfl

theorem pure_apply {α : Type} (a : α) (w : World) : (pure a : M α) w = .ret a w := rfl

theorem emit_apply (e : Event) (w : World) :
    emit e w = .ret () { w with trace := w.trace ++ [e] } := rfl

theorem getWorld_apply (w : World) : getWorld w = .ret w w := rfl

theorem modifyGlobalconf_apply (f : Globalconf → Globalconf) (w : World) :
    modifyGlobalconf f w = .ret () { w with globalconf := f w.globalconf } := rfl

theorem log_set_verbosity_apply (group : GString) (lvl : log_level_t) (w : World) :
    log_set_verbosity group lvl w =
      .ret () { w with verbosity := w.verbosity.set group lvl,
                       trace := w.trace ++ [Event.log_set_verbosity group lvl] } := rfl

theorem warn_apply (msg : GString) (w : World) :
    warn msg w = .ret () { w with trace := w.trace ++ [Event.warn msg] } := rfl

theorem fatal_apply {α : Type} (msg : GString) (w : World) :
    (fatal msg : M α) w = .aborted { w with trace := w.trace ++ [Event.fatal msg] } := rfl

theorem init_directories_apply (env : Env) (w : World) :
    init_directories env w =
      .ret () { w with globalconf := init_directories_conf env w.globalconf,
                       trace := w.trace ++ init_directories_events env w.globalconf.profile } := by
  simp [init_directories, bind_apply, getWorld_apply, modifyGlobalconf_apply, emit_apply,
    init_directories_conf, init_directories_events]

/-! ## Facts about the helpers of the log-level parser -/

theorem log_level_from_string_name (lvl : log_level_t) :
    log_level_from_string (log_level_name lvl) = some lvl := by
  cases lvl <;> decide

theorem log_level_from_string_eq_some {str : GString} {lvl : log_level_t}
    (h : log_level_from_string str = some lvl) : str = log_level_name lvl := by
  unfold log_level_from_string at h
  split_ifs at h with h1 h2 h3 h4 h5 <;> simp at h <;> subst h <;> assumption

theorem log_level_name_no_comma (lvl : log_level_t) : ',' ∉ log_level_name lvl := by
  cases lvl <;> decide

theorem log_level_name_no_equals (lvl : log_level_t) : '=' ∉ log_level_name lvl := by
  cases lvl <;> decide

theorem log_level_name_ne_nil (lvl : log_level_t) : log_level_name lvl ≠ [] := by
  cases lvl <;> decide

theorem log_level_from_string_none_of_equals {str : GString} (h : '=' ∈ str) :
    log_level_from_string str = none := by
  cases hs : log_level_from_string str with
  | none => rfl
  | some lvl =>
    have := log_level_from_string_eq_some hs
    subst this
    exact absurd h (log_level_name_no_equals lvl)

theorem strchr_append_of_not_mem (a b : GString) (c : Char) (h : c ∉ a) :
    strchr (a ++ c :: b) c = some a.length := by
  induction a with
  | nil => simp [strchr]
  | cons x xs ih =>
    have hx : x ≠ c := fun e => h (by simp [e])
    have hxs : c ∉ xs := fun e => h (by simp [e])
    simp [strchr, hx, ih hxs]

theorem strchr_eq_none {s : GString} {c : Char} (h : strchr s c = none) : c ∉ s := by
  induction s with
  | nil => simp
  | cons x xs ih =>
    unfold strchr at h
    split_ifs at h with hx
    simp only [Option.map_eq_none'] at h
    simp only [List.mem_cons, not_or]
    exact ⟨fun e => hx e.symm, ih h⟩

theorem strchr_eq_some {s : GString} {c : Char} {i : Nat} (h : strchr s c = some i) :
    s = s.take i ++ c :: s.drop (i + 1) ∧ c ∉ s.take i := by
  induction s generalizing i with
  | nil => simp [strchr] at h
  | cons x xs ih =>
    unfold strchr at h
    split_ifs at h with hx
    · simp only [Option.some.injEq] at h
      subst h
      simp [hx]
    · simp only [Option.map_eq_some'] at h
      obtain ⟨j, hj, rfl⟩ := h
      obtain ⟨h1, h2⟩ := ih hj
      constructor
      · simp only [List.take_succ_cons, List.drop_succ_cons, List.cons_append, List.cons.injEq,
          true_and]
        exact h1
      · simp only [List.take_succ_cons, List.mem_cons, not_or]
        exact ⟨fun e => hx e.symm, h2⟩

theorem split_on_ne_nil (d : Char) (s : GString) : split_on d s ≠ [] := by
  induction s with
  | nil => simp [split_on]
  | cons c cs ih =>
    unfold split_on
    split_ifs
    · simp
    · split <;> simp

theorem split_on_of_not_mem (d : Char) (a : GString) (h : d ∉ a) : split_on d a = [a] := by
  induction a with
  | nil => simp [split_on]
  | cons x xs ih =>
    have hx : x ≠ d := fun e => h (by simp [e])
    have hxs : d ∉ xs := fun e => h (by simp [e])
    simp [split_on, hx, ih hxs]

theorem split_on_append (d : Char) (a b : GString) (h : d ∉ a) :
    split_on d (a ++ d :: b) = a :: split_on d b := by
  induction a with
  | nil => simp [split_on]
  | cons x xs ih =>
    have hx : x ≠ d := fun e => h (by simp [e])
    have hxs : d ∉ xs := fun e => h (by simp [e])
    simp [split_on, hx, ih hxs]

theorem VerbosityTable.get_set_same (t : VerbosityTable) (g : GString) (lvl : log_level_t) :
    (t.set g lvl).get g = some lvl := by
  simp [VerbosityTable.get, VerbosityTable.set]

theorem find_filter_ne (t : VerbosityTable) (g g1 : GString) (h : g1 ≠ g) :
    (t.filter (fun e => decide (e.1 ≠ g))).find? (fun e => decide (e.1 = g1)) =
      t.find? (fun e => decide (e.1 = g1)) := by
  induction t with
  | nil => rfl
  | cons e es ih =>
    by_cases h1 : e.1 = g
    · have d1 : decide (e.1 ≠ g) = false := by simp [h1]
      have d2 : decide (e.1 = g1) = false := by
        simp only [decide_eq_false_iff_not]
        intro e2
        exact h (e2.symm.trans h1)
      rw [List.filter_cons, List.find?_cons, d1, d2]
      exact ih
    · have d1 : decide (e.1 ≠ g) = true := by simp [h1]
      rw [List.filter_cons, d1]
      simp only [if_true, List.find?_cons]
      rw [ih]

theorem VerbosityTable.get_set_ne (t : VerbosityTable) (g g1 : GString) (lvl : log_level_t)
    (h : g1 ≠ g) : (t.set g lvl).get g1 = t.get g1 := by
  have d : decide (g = g1) = false := by
    simp only [decide_eq_false_iff_not]
    exact fun e => h e.symm
  unfold VerbosityTable.get VerbosityTable.set
  rw [List.find?_cons]
  simp only [d]
  rw [find_filter_ne t g g1 h]

theorem parse_log_level_part_apply (part : GString) (w : World) :
    parse_log_level_part part w = .ret () (apply_part w part) := by
  unfold parse_log_level_part apply_part classify
  cases h1 : log_level_from_string part with
  | some lvl => simp [log_set_verbosity_apply]
  | none =>
    cases h2 : strchr part '=' with
    | none => simp [warn_apply]
    | some sep =>
      cases h3 : log_level_from_string (List.drop (sep + 1) part) with
      | none => simp [h3, warn_apply]
      | some lvl => simp [h3, log_set_verbosity_apply]

theorem parse_log_level_parts_apply (parts : List GString) (w : World) :
    parse_log_level_parts parts w = .ret () (parts.foldl apply_part w) := by
  induction parts generalizing w with
  | nil => simp [parse_log_level_parts, pure_apply]
  | cons p ps ih =>
    simp [parse_log_level_parts, bind_apply, parse_log_level_part_apply, ih]

/-- C4: when the dictionary contains version, whatever else it contains,
luakit_local_options returns 0 and the world changes by exactly one call, the g_printf
of the identity and version line: globalconf, the verbosity table and the argument
vector stay as they were and no other outside call is made. -/
theorem version_short_circuit (env : Env) (dict : GVariantDict) (w : World)
    (hversion : dict "version".toList ≠ none) :
    luakit_local_options env dict w =
      .ret 0 { w with trace := w.trace ++
        [Event.g_printf ("luakit ".toList ++ env.VERSION ++ "\n".toList)] } := by
  unfold luakit_local_options g_variant_dict_lookup_value
  cases h : dict "version".toList with
  | none => exact absurd h hversion
  | some v => simp [bind_apply, emit_apply, pure_apply]


theorem LogPart.text_no_comma (p : LogPart) (h : p.wellFormed) : ',' ∉ p.text := by
  cases p with
  | bare level => exact log_level_name_no_comma level
  | named name level =>
    have h2 := log_level_name_no_comma level
    simp only [LogPart.text, List.mem_append, List.mem_cons, not_or]
    exact ⟨h.2, by decide, h2⟩

theorem LogPart.text_ne_nil (p : LogPart) : p.text ≠ [] := by
  cases p with
  | bare level => exact log_level_name_ne_nil level
  | named name level => simp [LogPart.text]

theorem LogPart.classify_text (p : LogPart) (h : p.wellFormed) :
    classify p.text = some (p.group, p.level) := by
  cases p with
  | bare level => simp [classify, LogPart.text, log_level_from_string_name, LogPart.group,
      LogPart.level]
  | named name level =>
    have h1 : log_level_from_string (name ++ '=' :: log_level_name level) = none :=
      log_level_from_string_none_of_equals (by simp)
    have h2 := strchr_append_of_not_mem name (log_level_name level) '=' h.1
    simp [classify, LogPart.text, h1, h2, log_level_from_string_name, LogPart.group,
      LogPart.level]

theorem log_spec_text_ne_nil (p : LogPart) (ps : List LogPart) :
    log_spec_text (p :: ps) ≠ [] := by
  cases ps with
  | nil => exact LogPart.text_ne_nil p
  | cons q rest =>
    have := LogPart.text_ne_nil p
    simp [log_spec_text, this]

theorem split_on_log_spec_text (p : LogPart) (ps : List LogPart)
    (h : ∀ q ∈ p :: ps, q.wellFormed) :
    split_on ',' (log_spec_text (p :: ps)) = (p :: ps).map LogPart.text := by
  induction ps generalizing p with
  | nil =>
    simp only [log_spec_text, List.map_cons, List.map_nil]
    exact split_on_of_not_mem ',' _ (LogPart.text_no_comma p (h p (by simp)))
  | cons q rest ih =>
    simp only [log_spec_text, List.map_cons]
    rw [split_on_append ',' _ _ (LogPart.text_no_comma p (h p (by simp)))]
    have := ih q (fun r hr => h r (by simp [List.mem_cons] at hr ⊢; tauto))
    simp only [List.map_cons] at this
    cases rest with
    | nil => simp only [log_spec_text] at this ⊢; rw [this]
    | cons r rest1 => simp only [log_spec_text] at this ⊢; rw [this]

theorem g_strsplit_log_spec_text (ps : List LogPart) (h : ∀ q ∈ ps, q.wellFormed) :
    g_strsplit (log_spec_text ps) ',' = ps.map LogPart.text := by
  cases ps with
  | nil => simp [g_strsplit, log_spec_text]
  | cons p rest =>
    unfold g_strsplit
    rw [if_neg (log_spec_text_ne_nil p rest)]
    exact split_on_log_spec_text p rest h

theorem foldl_apply_part_text (ps : List LogPart) (h : ∀ q ∈ ps, q.wellFormed) (w : World) :
    (ps.map LogPart.text).foldl apply_part w =
      { w with
        verbosity := ps.foldl (fun acc p => acc.set p.group p.level) w.verbosity,
        trace := w.trace ++ ps.map (fun p => Event.log_set_verbosity p.group p.level) } := by
  induction ps generalizing w with
  | nil => simp
  | cons p rest ih =>
    have hp := LogPart.classify_text p (h p (by simp))
    simp only [List.map_cons, List.foldl_cons]
    rw [ih (fun q hq => h q (by simp [hq]))]
    simp [apply_part, hp]

theorem foldl_set_get_of_not_group (ps : List LogPart) (t : VerbosityTable) (S : GString)
    (h : ∀ q ∈ ps, q.group ≠ S) :
    (ps.foldl (fun acc p => acc.set p.group p.level) t).get S = t.get S := by
  induction ps generalizing t with
  | nil => rfl
  | cons p rest ih =>
    simp only [List.foldl_cons]
    rw [ih _ (fun q hq => h q (by simp [hq]))]
    exact VerbosityTable.get_set_ne t p.group S p.level (fun e => h p (by simp) e.symm)

theorem luakit_local_options_log (env : Env) (dict : GVariantDict) (w : World)
    (log_lvl : GString) (hversion : dict "version".toList = none)
    (hcheck : dict "check".toList = none)
    (hlog : dict "log".toList = some (GVariant.string log_lvl)) :
    luakit_local_options env dict w =
      .ret (-1)
        (let w1 := (g_strsplit log_lvl ',').foldl apply_part
            { w with verbosity := w.verbosity.set "all".toList log_level_t.info,
                     trace := w.trace ++
                       [Event.log_set_verbosity "all".toList log_level_t.info] }
         { w1 with trace := w1.trace ++
             (if (dict "verbose".toList).isSome then [Event.warn mix_warning] else []) }) := by
  unfold luakit_local_options g_variant_dict_lookup_s g_variant_dict_lookup_value
  simp only [hversion, hcheck, hlog, bind_apply, log_set_verbosity_apply,
    parse_log_level_option, parse_log_level_parts_apply]
  cases hv : (dict "verbose".toList).isSome <;>
    simp [bind_apply, pure_apply, warn_apply, mix_warning]

/-- C2: for a `--log` string that is the comma-separated list of well-formed parts
(bare levels and name=level with a name free of = and ,), with neither version nor
check given, luakit_local_options returns -1 and leaves the table in which "all"
starts at info and every part, in order, overwrites the threshold of its subsystem;
the only calls are the log_set_verbosity ones, so the parser emits no warning (the
only warning possible is the one about -v, when verbose is given too).  Later parts
win, "all" stays at info without a part for it, and no other subsystem is touched. -/
theorem log_spec_parsing (env : Env) (dict : GVariantDict) (w : World) (parts : List LogPart)
    (hversion : dict "version".toList = none) (hcheck : dict "check".toList = none)
    (hlog : dict "log".toList = some (GVariant.string (log_spec_text parts)))
    (hparts : ∀ p ∈ parts, p.wellFormed) :
    luakit_local_options env dict w =
      .ret (-1) { w with
        verbosity := spec_table parts w.verbosity,
        trace := w.trace ++ Event.log_set_verbosity "all".toList log_level_t.info ::
          parts.map (fun p => Event.log_set_verbosity p.group p.level) ++
          (if (dict "verbose".toList).isSome then [Event.warn mix_warning] else []) } ∧
    (∀ before p after, parts = before ++ p :: after → (∀ q ∈ after, q.group ≠ p.group) →
      (spec_table parts w.verbosity).get p.group = some p.level) ∧
    ((∀ q ∈ parts, q.group ≠ "all".toList) →
      (spec_table parts w.verbosity).get "all".toList = some log_level_t.info) ∧
    (∀ S, S ≠ "all".toList → (∀ q ∈ parts, q.group ≠ S) →
      (spec_table parts w.verbosity).get S = w.verbosity.get S) := by
  refine ⟨?_, ?_, ?_, ?_⟩
  · rw [luakit_local_options_log env dict w _ hversion hcheck hlog,
      g_strsplit_log_spec_text parts hparts, foldl_apply_part_text parts hparts]
    simp [spec_table]
  · intro before p after hp hafter
    subst hp
    unfold spec_table
    rw [List.foldl_append, List.foldl_cons, foldl_set_get_of_not_group after _ _ hafter]
    exact VerbosityTable.get_set_same _ _ _
  · intro hall
    unfold spec_table
    rw [foldl_set_get_of_not_group parts _ _ hall]
    exact VerbosityTable.get_set_same _ _ _
  · intro S hS hnone
    unfold spec_table
    rw [foldl_set_get_of_not_group parts _ _ hnone]
    exact VerbosityTable.get_set_ne _ _ _ _ hS

theorem apply_part_eq (w : World) (part : GString) :
    apply_part w part =
      { w with verbosity := part_table w.verbosity part,
               trace := w.trace ++ part_events part } := by
  unfold apply_part part_table part_events
  cases h : classify part with
  | none => simp
  | some gl => simp

theorem foldl_apply_part (parts : List GString) (w : World) :
    parts.foldl apply_part w =
      { w with verbosity := parts.foldl part_table w.verbosity,
               trace := w.trace ++ parts_events parts } := by
  induction parts generalizing w with
  | nil => simp [parts_events]
  | cons p rest ih =>
    simp only [List.foldl_cons]
    rw [ih, apply_part_eq]
    simp [parts_events]

theorem parts_events_append (a b : List GString) :
    parts_events (a ++ b) = parts_events a ++ parts_events b := by
  induction a with
  | nil => simp [parts_events]
  | cons p rest ih => simp [parts_events, ih]

theorem classify_unrecognised (bad : GString) (hbare : log_level_from_string bad = none)
    (hnamed : ∀ name level, bad = name ++ '=' :: level → '=' ∉ name →
      log_level_from_string level = none) :
    classify bad = none := by
  unfold classify
  rw [hbare]
  cases h : strchr bad '=' with
  | none => rfl
  | some sep =>
    obtain ⟨h1, h2⟩ := strchr_eq_some h
    simp [hnamed _ _ h1 h2]

/-- C3: with neither version nor check given and the same `--log` string, the run with
verbose returns -1 like the run without it and leaves the same world (so the same
verbosity table) except for exactly one more call at the end of the trace: the warning
about the ignored -v. -/
theorem log_overrides_verbose (env : Env) (dict dict_v : GVariantDict) (w : World)
    (s : GString)
    (hversion : dict "version".toList = none) (hcheck : dict "check".toList = none)
    (hlog : dict "log".toList = some (GVariant.string s))
    (hverbose : dict "verbose".toList = none)
    (hversion_v : dict_v "version".toList = none) (hcheck_v : dict_v "check".toList = none)
    (hlog_v : dict_v "log".toList = some (GVariant.string s))
    (hverbose_v : dict_v "verbose".toList ≠ none) :
    ∃ w1 : World,
      luakit_local_options env dict w = .ret (-1) w1 ∧
      luakit_local_options env dict_v w =
        .ret (-1) { w1 with trace := w1.trace ++ [Event.warn mix_warning] } := by
  rw [luakit_local_options_log env dict w s hversion hcheck hlog,
    luakit_local_options_log env dict_v w s hversion_v hcheck_v hlog_v]
  have hv : (dict_v "verbose".toList).isSome = true := by
    cases h : dict_v "verbose".toList with
    | none => exact absurd h hverbose_v
    | some v => rfl
  refine ⟨_, rfl, ?_⟩
  simp only [hverbose, hv]
  simp

/-- C5: when the dictionary contains check and not version, luakit_local_options runs
init_directories, luaH_init and the syntax-only luaH_parserc (confpath, FALSE), prints
one diagnostic on stderr and returns 0 (success text) when the parse succeeded and 1
(failure text) when it failed; the result is never negative, the verbosity table is
unchanged, and neither web_context_init nor ipc_init is among the calls. -/
theorem check_outcome (env : Env) (dict : GVariantDict) (w : World)
    (hversion : dict "version".toList = none) (hcheck : dict "check".toList ≠ none) :
    luakit_local_options env dict w =
      .ret (if env.luaH_parserc w.globalconf.confpath false then 0 else 1)
        { w with
          globalconf := init_directories_conf env w.globalconf,
          trace := w.trace ++ init_directories_events env w.globalconf.profile ++
            [Event.luaH_init true, Event.luaH_parserc w.globalconf.confpath false,
             Event.g_fprintf_stderr
               (check_diagnostic (env.luaH_parserc w.globalconf.confpath false))] } ∧
    (0 : Int) ≤ (if env.luaH_parserc w.globalconf.confpath false then 0 else 1) ∧
    Event.web_context_init ∉ init_directories_events env w.globalconf.profile ∧
    Event.ipc_init ∉ init_directories_events env w.globalconf.profile ∧
    (∀ e ∈ init_directories_events env w.globalconf.profile,
      ∃ path, e = Event.g_mkdir_with_parents path 0o771) := by
  refine ⟨?_, ?_, ?_, ?_, ?_⟩
  · unfold luakit_local_options g_variant_dict_lookup_value
    cases h : dict "check".toList with
    | none => exact absurd h hcheck
    | some v =>
      simp only [hversion]
      cases hp : env.luaH_parserc w.globalconf.confpath false <;>
        simp [bind_apply, init_directories_apply, emit_apply, getWorld_apply,
          pure_apply, init_directories_conf, check_diagnostic, hp]
  · split <;> decide
  · simp [init_directories_events]
  · simp [init_directories_events]
  · intro e he
    simp only [init_directories_events, List.mem_cons, List.mem_singleton,
      List.not_mem_nil, or_false] at he
    rcases he with rfl | rfl | rfl <;> exact ⟨_, rfl⟩

/-- C9: luakit_startup makes, after the optional g_log_set_writer_func, exactly the
calls of init_directories, then web_context_init, ipc_init, luaH_init and
luaH_parserc (confpath, TRUE), each once and in this order (every call is synchronous);
it returns when the configuration load succeeded and ends in fatal when it failed. -/
theorem startup_stage_order (env : Env) (w : World) :
    luakit_startup env w =
      (if env.luaH_parserc w.globalconf.confpath true then
        .ret () { w with
          globalconf := init_directories_conf env { w.globalconf with windows := true },
          trace := w.trace ++
            (if env.glib_log_writer_compiled then [Event.g_log_set_writer_func] else []) ++
            init_directories_events env w.globalconf.profile ++
            [Event.web_context_init, Event.ipc_init, Event.luaH_init false,
             Event.luaH_parserc w.globalconf.confpath true] }
      else
        .aborted { w with
          globalconf := init_directories_conf env { w.globalconf with windows := true },
          trace := w.trace ++
            (if env.glib_log_writer_compiled then [Event.g_log_set_writer_func] else []) ++
            init_directories_events env w.globalconf.profile ++
            [Event.web_context_init, Event.ipc_init, Event.luaH_init false,
             Event.luaH_parserc w.globalconf.confpath true,
             Event.fatal "couldn't find rc file".toList] }) := by
  unfold luakit_startup
  cases hc : env.glib_log_writer_compiled <;>
    cases hp : env.luaH_parserc w.globalconf.confpath true <;>
    simp [bind_apply, init_directories_apply, emit_apply, getWorld_apply, pure_apply,
      modifyGlobalconf_apply, fatal_apply, init_directories_conf, hp]

theorem named_unrecognised_of_classify (bad : GString) (h : classify bad = none) :
    ∀ name level, bad = name ++ '=' :: level → '=' ∉ name →
      log_level_from_string level = none := by
  intro name level hbad hname
  subst hbad
  have h1 : log_level_from_string (name ++ '=' :: level) = none :=
    log_level_from_string_none_of_equals (by simp)
  have h2 := strchr_append_of_not_mem name level '=' hname
  unfold classify at h
  simp only [h1, h2, List.drop_left', Option.map_eq_none'] at h
  have h3 : List.drop (name.length + 1) (name ++ '=' :: level) = level := by
    rw [List.drop_append_eq_append_drop]
    simp
  rw [h3] at h
  exact h

/-- C8: when a `--log` string splits into the parts `pre`, `bad`, `post` and `bad` is
neither a level nor name=level with a level after its first =, the loop handles `pre`,
then for `bad` makes exactly one call, the warning that names `bad`, leaving the table
as it was, and then handles `post`: table and calls are those of the string without
`bad`, plus that one warning in its place.  In luakit_local_options the registration
of all=info comes before the calls of the first part. -/
theorem unrecognised_part_skipped (s : GString) (pre post : List GString) (bad : GString)
    (hsplit : g_strsplit s ',' = pre ++ bad :: post)
    (hbare : log_level_from_string bad = none)
    (hnamed : ∀ name level, bad = name ++ '=' :: level → '=' ∉ name →
      log_level_from_string level = none) :
    ∃ E_pre E_post : List Event,
      (∀ w : World, ∃ t1 t : VerbosityTable,
        parse_log_level_parts pre w =
          .ret () { w with verbosity := t1, trace := w.trace ++ E_pre } ∧
        parse_log_level_parts (pre ++ [bad]) w =
          .ret () { w with verbosity := t1,
                           trace := w.trace ++ E_pre ++
                             [Event.warn (unrecognized_warning bad)] } ∧
        parse_log_level_parts (pre ++ post) w =
          .ret () { w with verbosity := t, trace := w.trace ++ E_pre ++ E_post } ∧
        parse_log_level_option s w =
          .ret () { w with verbosity := t,
                           trace := w.trace ++ E_pre ++
                             Event.warn (unrecognized_warning bad) :: E_post }) ∧
      (∀ (env : Env) (dict : GVariantDict) (w : World),
        dict "version".toList = none → dict "check".toList = none →
        dict "log".toList = some (GVariant.string s) →
        ∃ t : VerbosityTable,
          luakit_local_options env dict w =
            .ret (-1) { w with
              verbosity := t,
              trace := w.trace ++ Event.log_set_verbosity "all".toList log_level_t.info ::
                E_pre ++ Event.warn (unrecognized_warning bad) :: E_post ++
                (if (dict "verbose".toList).isSome then [Event.warn mix_warning] else []) }) := by
  have hc := classify_unrecognised bad hbare hnamed
  have hev : part_events bad = [Event.warn (unrecognized_warning bad)] := by
    simp [part_events, hc]
  have htab : ∀ t, part_table t bad = t := by
    intro t
    simp [part_table, hc]
  refine ⟨parts_events pre, parts_events post, ?_, ?_⟩
  · intro w
    refine ⟨pre.foldl part_table w.verbosity, (pre ++ post).foldl part_table w.verbosity,
      ?_, ?_, ?_, ?_⟩
    · rw [parse_log_level_parts_apply, foldl_apply_part]
    · rw [parse_log_level_parts_apply, foldl_apply_part, parts_events_append]
      simp [parts_events, hev, htab]
    · rw [parse_log_level_parts_apply, foldl_apply_part, parts_events_append]
      simp
    · unfold parse_log_level_option
      rw [hsplit, parse_log_level_parts_apply, foldl_apply_part, parts_events_append]
      simp [parts_events, hev, htab]
  · intro env dict w hversion hcheck hlog
    refine ⟨(pre ++ post).foldl part_table (w.verbosity.set "all".toList log_level_t.info), ?_⟩
    rw [luakit_local_options_log env dict w s hversion hcheck hlog, hsplit, foldl_apply_part,
      parts_events_append]
    simp [parts_events, hev, htab]

theorem glib_level_table_getElem (i : Nat) :
    glib_level_table[i]? = if i < 129 then some (glib_level_entry i) else none := by
  unfold glib_level_table
  rw [List.getElem?_map]
  by_cases h : i < 129
  · rw [List.getElem?_range (by simpa [G_LOG_LEVEL_DEBUG] using h), if_pos h]
    rfl
  · rw [List.getElem?_eq_none (by simpa [G_LOG_LEVEL_DEBUG] using h), if_neg h]
    rfl

/-- C10: the guard of glib_log_writer lets through flag values that the table does not
cover.  G_LOG_LEVEL_ERROR with the G_LOG_FLAG_FATAL bit (the value 6) and
G_LOG_LEVEL_WARNING with the G_LOG_FLAG_RECURSION bit (17) pass the guard and index an
entry without an initialiser; a user-defined level bit (1 << 8) passes the guard and
indexes beyond the 129 entries of the array.  The entries with an initialiser are
exactly those of the six plain level values. -/
theorem glib_log_writer_flag_bits (fields : List (GString × GString)) :
    G_LOG_LEVEL_MASK &&& (G_LOG_LEVEL_ERROR ||| G_LOG_FLAG_FATAL) ≠ 0 ∧
    glib_log_writer (G_LOG_LEVEL_ERROR ||| G_LOG_FLAG_FATAL) fields =
      .reads_uninitialised_entry 6 ∧
    G_LOG_LEVEL_MASK &&& (G_LOG_LEVEL_WARNING ||| G_LOG_FLAG_RECURSION) ≠ 0 ∧
    glib_log_writer (G_LOG_LEVEL_WARNING ||| G_LOG_FLAG_RECURSION) fields =
      .reads_uninitialised_entry 17 ∧
    G_LOG_LEVEL_MASK &&& (1 <<< 8) ≠ 0 ∧
    glib_log_writer (1 <<< 8) fields = .reads_outside_array 256 ∧
    glib_level_table.length = 129 ∧
    (∀ flags lvl, glib_level_table[flags]? = some (some lvl) ↔
      (flags = G_LOG_LEVEL_ERROR ∧ lvl = .fatal) ∨
      (flags = G_LOG_LEVEL_CRITICAL ∧ lvl = .warn) ∨
      (flags = G_LOG_LEVEL_WARNING ∧ lvl = .warn) ∨
      (flags = G_LOG_LEVEL_MESSAGE ∧ lvl = .info) ∨
      (flags = G_LOG_LEVEL_INFO ∧ lvl = .verbose) ∨
      (flags = G_LOG_LEVEL_DEBUG ∧ lvl = .debug)) := by
  refine ⟨by decide, ?_, by decide, ?_, by decide, ?_, ?_, ?_⟩
  · unfold glib_log_writer
    simp only [glib_level_table_getElem]
    rw [if_neg (by decide)]
    rfl
  · unfold glib_log_writer
    simp only [glib_level_table_getElem]
    rw [if_neg (by decide)]
    rfl
  · unfold glib_log_writer
    simp only [glib_level_table_getElem]
    rw [if_neg (by decide)]
    rfl
  · simp [glib_level_table, G_LOG_LEVEL_DEBUG]
  · intro flags lvl
    constructor
    · intro h
      rw [glib_level_table_getElem] at h
      split_ifs at h with hlt
      simp only [Option.some.injEq] at h
      unfold glib_level_entry at h
      split_ifs at h with h1 h2 h3 h4 h5 h6 <;> simp at h <;> subst h <;> simp [*]
    · intro h
      rw [glib_level_table_getElem]
      rcases h with ⟨rfl, rfl⟩ | ⟨rfl, rfl⟩ | ⟨rfl, rfl⟩ | ⟨rfl, rfl⟩ | ⟨rfl, rfl⟩ |
          ⟨rfl, rfl⟩ <;>
        decide

/-! ## main -/

theorem cstring_append_zero (b : Buffer) : cstring (cstring b ++ [0]) = cstring b := by
  unfold cstring
  induction b with
  | nil => simp
  | cons x xs ih =>
    by_cases hx : x = 0
    · simp [List.takeWhile_cons, hx]
    · simp only [List.takeWhile_cons, hx, ne_eq, not_false_eq_true, decide_True, if_true,
        List.cons_append]
      rw [ih]

theorem cstring_g_strdup (b : Buffer) : cstring (g_strdup b) = cstring b :=
  cstring_append_zero b

theorem strlen_le (b : Buffer) : strlen b ≤ b.length := by
  unfold strlen cstring
  exact (List.takeWhile_sublist _).length_le

theorem memset_strlen (b : Buffer) : memset b 0 (strlen b) = scrubbed b := by
  unfold memset scrubbed
  congr 1
  have h := strlen_le b
  rw [List.eq_replicate_iff]
  constructor
  · simp [List.length_take, h]
  · intro x hx
    simp only [List.mem_map] at hx
    obtain ⟨_, _, rfl⟩ := hx
    rfl

theorem save_argv_loop (f : Nat → Buffer) (n : Nat) :
    (List.range n).foldl (fun saved i => saved ++ [f i]) [] = (List.range n).map f := by
  induction n with
  | zero => rfl
  | succ k ih => rw [List.range_succ, List.foldl_append, ih]; simp

theorem save_argv_eq (argv : List Buffer) : save_argv argv.length argv = argv.map g_strdup := by
  unfold save_argv
  rw [save_argv_loop (fun i => g_strdup (argv.getD i []))]
  apply List.ext_getElem
  · simp
  · intro i h1 h2
    simp only [List.length_map, List.length_range] at h1
    simp [List.getD_eq_getElem?_getD, List.getElem?_eq_getElem h1]

theorem getD_append_length (done : List Buffer) (b : Buffer) (bs : List Buffer) :
    (done ++ b :: bs).getD done.length [] = b := by
  induction done with
  | nil => rfl
  | cons d ds ih => simpa using ih

theorem set_append_length (done : List Buffer) (b c : Buffer) (bs : List Buffer) :
    (done ++ b :: bs).set done.length c = (done ++ [c]) ++ bs := by
  induction done with
  | nil => rfl
  | cons d ds ih => simp

theorem erase_argv_loop (rest done : List Buffer) :
    (List.range' done.length rest.length).foldl
      (fun live i => live.set i (memset (live.getD i []) 0 (strlen (live.getD i []))))
      (done ++ rest) = done ++ rest.map scrubbed := by
  induction rest generalizing done with
  | nil => simp
  | cons b bs ih =>
    simp only [List.length_cons, List.range'_succ, List.foldl_cons]
    rw [getD_append_length done b bs, memset_strlen b, set_append_length done b (scrubbed b) bs]
    have := ih (done ++ [scrubbed b])
    simp only [List.length_append, List.length_singleton] at this
    rw [this]
    simp

theorem erase_argv_eq (a0 : Buffer) (rest : List Buffer) :
    erase_argv (a0 :: rest).length (a0 :: rest) = a0 :: rest.map scrubbed := by
  unfold erase_argv
  have := erase_argv_loop rest [a0]
  simpa using this

theorem main_apply (env : Env) (argc : Nat) (w : World) :
    main env argc w =
      if env.g_application_id_is_valid "org.luakit".toList then
        .ret (env.g_application_run G_APPLICATION_HANDLES_OPEN argc (g_strdupv w.argv))
          { w with
            globalconf := { w.globalconf with
              starttime := some env.l_time,
              application_name := some "org.luakit".toList,
              execpath := some (g_strdup (w.argv.getD 0 [])),
              argv := some (save_argv argc w.argv),
              application := some G_APPLICATION_HANDLES_OPEN },
            argv := erase_argv argc w.argv,
            trace := w.trace ++ main_calls argc (g_strdupv w.argv) }
      else
        .aborted { w with
          globalconf := { w.globalconf with
            starttime := some env.l_time,
            application_name := some "org.luakit".toList },
          trace := w.trace ++ [Event.fatal "invalid application name".toList] } := by
  unfold main
  cases hv : env.g_application_id_is_valid "org.luakit".toList <;>
    simp [bind_apply, emit_apply, getWorld_apply, pure_apply, modifyGlobalconf_apply,
      fatal_apply, modifyArgv, main_calls, hv]

/-- C1: when main runs through (the application id is accepted) on an argument vector
of length argc >= 1, the copy kept in globalconf.argv and the copy handed to
g_application_run hold the original strings element for element, the live vector
keeps its length, argv[0] is untouched, and every argv[i] with 1 <= i < argc has zero
bytes over exactly the length of its original string and its later bytes unchanged. -/
theorem main_scrubs_arguments (env : Env) (w : World) (argc : Nat)
    (hvalid : env.g_application_id_is_valid "org.luakit".toList = true)
    (hargc : 1 ≤ argc) (hlen : w.argv.length = argc) :
    ∃ (status : Int) (w1 : World) (saved argv2 : List Buffer),
      main env argc w = .ret status w1 ∧
      w1.globalconf.argv = some saved ∧
      w1.trace = w.trace ++ main_calls argc argv2 ∧
      saved.map cstring = w.argv.map cstring ∧
      argv2.map cstring = w.argv.map cstring ∧
      w1.argv.length = argc ∧
      w1.argv[0]? = w.argv[0]? ∧
      ∀ i, 1 ≤ i → i < argc → w1.argv[i]? = (w.argv[i]?).map scrubbed := by
  subst hlen
  rw [main_apply, if_pos hvalid]
  refine ⟨_, _, _, _, rfl, rfl, rfl, ?_, ?_, ?_, ?_, ?_⟩
  · rw [save_argv_eq, List.map_map]
    exact List.map_congr_left (fun b _ => cstring_g_strdup b)
  · unfold g_strdupv
    rw [List.map_map]
    exact List.map_congr_left (fun b _ => cstring_g_strdup b)
  · cases hw : w.argv with
    | nil => rw [hw] at hargc; simp at hargc
    | cons a0 rest => simp only []; rw [erase_argv_eq]; simp
  · cases hw : w.argv with
    | nil => rw [hw] at hargc; simp at hargc
    | cons a0 rest => simp only []; rw [erase_argv_eq]; simp
  · intro i hi1 hi2
    cases hw : w.argv with
    | nil => rw [hw] at hargc; simp at hargc
    | cons a0 rest =>
      simp only []
      rw [erase_argv_eq]
      cases i with
      | zero => omega
      | succ j => simp

/-- C6: main never reaches fork, setsid or the exit of the parent, whatever the
command line: the pointer nonblock is NULL when it is tested, because the option
parsing that would set it is commented out.  With the arguments luakit --nonblock
the calls of main are the ones of the plain start, without fork and setsid. -/
theorem nonblock_never_forks :
    (∀ (env : Env) (argc : Nat) (w : World),
      (∀ status w1, main env argc w ≠ .exited status w1) ∧
      ∃ added, (main env argc w).world.trace = w.trace ++ added ∧
        Event.fork ∉ added ∧ Event.setsid ∉ added) ∧
    main Env.sample 2 { World.empty with argv := [cbuf "luakit", cbuf "--nonblock"] } =
      .ret 0 { World.empty with
        globalconf := { World.empty.globalconf with
          starttime := some 0,
          application_name := some "org.luakit".toList,
          execpath := some (cbuf "luakit"),
          argv := some [cbuf "luakit", cbuf "--nonblock"],
          application := some G_APPLICATION_HANDLES_OPEN },
        argv := [cbuf "luakit", List.replicate 11 0],
        trace := main_calls 2 [cbuf "luakit", cbuf "--nonblock"] } := by
  refine ⟨?_, by decide⟩
  intro env argc w
  rw [main_apply]
  cases hv : env.g_application_id_is_valid "org.luakit".toList
  · refine ⟨fun _ _ h => by simp at h, [Event.fatal "invalid application name".toList],
      ?_, ?_, ?_⟩
    · simp [Outcome.world]
    · simp
    · simp
  · refine ⟨fun _ _ h => by simp at h, main_calls argc (g_strdupv w.argv), ?_, ?_, ?_⟩
    · simp [Outcome.world]
    · simp [main_calls]
    · simp [main_calls]

/-- C7: the application that main runs always has the flags G_APPLICATION_HANDLES_OPEN
only, whatever the command line: g_application_set_flags is never called and the
G_APPLICATION_NON_UNIQUE bit is never set, because the pointer nonunique is NULL when
it is tested.  With the arguments luakit --nonunique, g_application_run is reached
with the flags 4. -/
theorem nonunique_never_set :
    (∀ (env : Env) (argc : Nat) (w : World),
      ∃ added, (main env argc w).world.trace = w.trace ++ added ∧
        (∀ flags, Event.g_application_set_flags flags ∉ added) ∧
        (∀ flags n argv2, Event.g_application_run flags n argv2 ∈ added →
          flags = G_APPLICATION_HANDLES_OPEN ∧ flags &&& G_APPLICATION_NON_UNIQUE = 0)) ∧
    (main Env.sample 2
        { World.empty with argv := [cbuf "luakit", cbuf "--nonunique"] }).world.trace =
      main_calls 2 [cbuf "luakit", cbuf "--nonunique"] ∧
    Event.g_application_run 4 2 [cbuf "luakit", cbuf "--nonunique"] ∈
      main_calls 2 [cbuf "luakit", cbuf "--nonunique"] := by
  refine ⟨?_, by decide, by decide⟩
  intro env argc w
  rw [main_apply]
  cases hv : env.g_application_id_is_valid "org.luakit".toList
  · refine ⟨[Event.fatal "invalid application name".toList], ?_, ?_, ?_⟩
    · simp [Outcome.world]
    · simp
    · simp
  · refine ⟨main_calls argc (g_strdupv w.argv), ?_, ?_, ?_⟩
    · simp [Outcome.world]
    · simp [main_calls]
    · intro flags n argv2 h
      simp only [main_calls, List.mem_cons, List.mem_singleton, List.not_mem_nil, or_false,
        reduceCtorEq, false_or, Event.g_application_run.injEq] at h
      obtain ⟨rfl, _, _⟩ := h
      exact ⟨rfl, by decide⟩

/-! ## The statements at concrete inputs -/

/-- Witness of C1: luakit --profile work. -/
theorem main_scrubs_arguments_witness :
    Env.sample.g_application_id_is_valid "org.luakit".toList = true ∧ 1 ≤ 3 ∧
    ({ World.empty with
        argv := [cbuf "luakit", cbuf "--profile", cbuf "work"] } : World).argv.length = 3 ∧
    (∃ (status : Int) (w1 : World) (saved argv2 : List Buffer),
      main Env.sample 3
        { World.empty with argv := [cbuf "luakit", cbuf "--profile", cbuf "work"] } =
        .ret status w1 ∧
      w1.globalconf.argv = some saved ∧
      w1.trace = World.empty.trace ++ main_calls 3 argv2 ∧
      saved.map cstring = [cbuf "luakit", cbuf "--profile", cbuf "work"].map cstring ∧
      argv2.map cstring = [cbuf "luakit", cbuf "--profile", cbuf "work"].map cstring ∧
      w1.argv.length = 3 ∧
      w1.argv[0]? = some (cbuf "luakit") ∧
      ∀ i, 1 ≤ i → i < 3 →
        w1.argv[i]? = ([cbuf "luakit", cbuf "--profile", cbuf "work"][i]?).map scrubbed) ∧
    (main Env.sample 3
        { World.empty with argv := [cbuf "luakit", cbuf "--profile", cbuf "work"] }).world.argv =
      [cbuf "luakit", [0, 0, 0, 0, 0, 0, 0, 0, 0, 0], [0, 0, 0, 0, 0]] :=
  ⟨by decide, by decide, by decide,
    main_scrubs_arguments Env.sample
      { World.empty with argv := [cbuf "luakit", cbuf "--profile", cbuf "work"] } 3
      (by decide) (by decide) (by decide),
    by decide⟩

/-- Witness of C2: the string all=debug,net=warn yields exactly all: debug and
net: warn without any warning; then info for net is suppressed and verbose for ui is
emitted. -/
theorem log_spec_parsing_witness :
    log_spec_text [.named "all".toList .debug, .named "net".toList .warn] =
      "all=debug,net=warn".toList ∧
    luakit_local_options Env.sample
        (dictOf [("log".toList, .string "all=debug,net=warn".toList)]) World.empty =
      .ret (-1) { World.empty with
        verbosity := [("net".toList, .warn), ("all".toList, .debug)],
        trace := [.log_set_verbosity "all".toList .info, .log_set_verbosity "all".toList .debug,
                  .log_set_verbosity "net".toList .warn] } ∧
    shouldEmit [("net".toList, .warn), ("all".toList, .debug)] "net".toList .info = some false ∧
    shouldEmit [("net".toList, .warn), ("all".toList, .debug)] "ui".toList .verbose = some true :=
  ⟨by decide,
    (log_spec_parsing Env.sample (dictOf [("log".toList, .string "all=debug,net=warn".toList)])
      World.empty [.named "all".toList .debug, .named "net".toList .warn]
      (by decide) (by decide) (by decide) (by decide)).1.trans (by decide),
    by decide, by decide⟩

/-- Witness of C3: verbose together with the string all=warn yields all: warn and one
warning in total, the one about the ignored -v. -/
theorem log_overrides_verbose_witness :
    (∃ w1 : World,
      luakit_local_options Env.sample
        (dictOf [("log".toList, .string "all=warn".toList)]) World.empty = .ret (-1) w1 ∧
      luakit_local_options Env.sample
        (dictOf [("verbose".toList, .boolean true), ("log".toList, .string "all=warn".toList)])
        World.empty = .ret (-1) { w1 with trace := w1.trace ++ [Event.warn mix_warning] }) ∧
    luakit_local_options Env.sample
        (dictOf [("verbose".toList, .boolean true), ("log".toList, .string "all=warn".toList)])
        World.empty =
      .ret (-1) { World.empty with
        verbosity := [("all".toList, .warn)],
        trace := [.log_set_verbosity "all".toList .info, .log_set_verbosity "all".toList .warn,
                  .warn mix_warning] } :=
  ⟨log_overrides_verbose Env.sample (dictOf [("log".toList, .string "all=warn".toList)])
      (dictOf [("verbose".toList, .boolean true), ("log".toList, .string "all=warn".toList)])
      World.empty "all=warn".toList (by decide) (by decide) (by decide) (by decide)
      (by decide) (by decide) (by decide) (by decide),
    by decide⟩

/-- Witness of C4: version together with check, verbose and log. -/
theorem version_short_circuit_witness :
    dictOf [("check".toList, .boolean true), ("verbose".toList, .boolean true),
            ("log".toList, .string "all=debug".toList), ("version".toList, .boolean true)]
      "version".toList ≠ none ∧
    luakit_local_options Env.sample
        (dictOf [("check".toList, .boolean true), ("verbose".toList, .boolean true),
                 ("log".toList, .string "all=debug".toList), ("version".toList, .boolean true)])
        World.empty =
      .ret 0 { World.empty with trace := [Event.g_printf "luakit 2.3\n".toList] } :=
  ⟨by decide,
    (version_short_circuit Env.sample
      (dictOf [("check".toList, .boolean true), ("verbose".toList, .boolean true),
               ("log".toList, .string "all=debug".toList), ("version".toList, .boolean true)])
      World.empty (by decide)).trans (by decide)⟩

/-- Witness of C5: check with a configuration that parses, and with one that does not. -/
theorem check_outcome_witness :
    dictOf [("check".toList, .boolean true)] "version".toList = none ∧
    dictOf [("check".toList, .boolean true)] "check".toList ≠ none ∧
    luakit_local_options Env.sample (dictOf [("check".toList, .boolean true)]) World.empty =
      .ret 0 { World.empty with
        globalconf := init_directories_conf Env.sample World.empty.globalconf,
        trace := init_directories_events Env.sample none ++
          [Event.luaH_init true, Event.luaH_parserc none false,
           Event.g_fprintf_stderr "Configuration file syntax OK.\n".toList] } ∧
    luakit_local_options Env.broken (dictOf [("check".toList, .boolean true)]) World.empty =
      .ret 1 { World.empty with
        globalconf := init_directories_conf Env.broken World.empty.globalconf,
        trace := init_directories_events Env.broken none ++
          [Event.luaH_init true, Event.luaH_parserc none false,
           Event.g_fprintf_stderr "Confiuration file syntax error.\n".toList] } :=
  ⟨by decide, by decide,
    (check_outcome Env.sample (dictOf [("check".toList, .boolean true)]) World.empty
      (by decide) (by decide)).1.trans (by decide),
    (check_outcome Env.broken (dictOf [("check".toList, .boolean true)]) World.empty
      (by decide) (by decide)).1.trans (by decide)⟩

/-- Witness of C8: in debug,,a=b=debug,net=warn the part a=b=debug is not recognised;
the empty part before it is not either. -/
theorem unrecognised_part_skipped_witness :
    g_strsplit "debug,,a=b=debug,net=warn".toList ',' =
      ["debug".toList, []] ++ "a=b=debug".toList :: ["net=warn".toList] ∧
    log_level_from_string "a=b=debug".toList = none ∧
    (∃ E_pre E_post : List Event,
      ∀ w : World, ∃ t1 t : VerbosityTable,
        parse_log_level_parts ["debug".toList, []] w =
          .ret () { w with verbosity := t1, trace := w.trace ++ E_pre } ∧
        parse_log_level_option "debug,,a=b=debug,net=warn".toList w =
          .ret () { w with verbosity := t,
                           trace := w.trace ++ E_pre ++
                             Event.warn (unrecognized_warning "a=b=debug".toList) :: E_post }) ∧
    luakit_local_options Env.sample
        (dictOf [("log".toList, .string "debug,,a=b=debug,net=warn".toList)]) World.empty =
      .ret (-1) { World.empty with
        verbosity := [("net".toList, .warn), ("all".toList, .debug)],
        trace := [.log_set_verbosity "all".toList .info, .log_set_verbosity "all".toList .debug,
                  .warn "ignoring unrecognized --log option ''".toList,
                  .warn "ignoring unrecognized --log option 'a=b=debug'".toList,
                  .log_set_verbosity "net".toList .warn] } :=
  ⟨by decide, by decide,
    (unrecognised_part_skipped "debug,,a=b=debug,net=warn".toList ["debug".toList, []]
      ["net=warn".toList] "a=b=debug".toList (by decide) (by decide)
      (named_unrecognised_of_classify _ (by decide))).elim
      (fun E_pre h => h.elim (fun E_post h2 =>
        ⟨E_pre, E_post, fun w => (h2.1 w).elim (fun t1 h3 => h3.elim (fun t h4 =>
          ⟨t1, t, h4.1, h4.2.2.2⟩))⟩)),
    by decide⟩
end Luakit
